import Mathlib

/-!
Verification development for the analytics core of the `ai-is-king` repository.

Shallow embedding conventions used throughout this file:
* JavaScript numbers are modelled as exact rationals (`ℚ`); all numeric
  literals appearing in the source (`1.1`, `0.3`, …) are carried over exactly.
* JavaScript `Infinity` / `-Infinity` (the initial `min`/`max` of a fresh
  metric aggregation) are modelled as `⊤ : WithTop ℚ` / `⊥ : WithBot ℚ`.
* `Math.sqrt` is modelled as `Real.sqrt` on the rational radicand cast to `ℝ`.
* JavaScript `Map` / object registries are modelled as association lists with
  insertion-order preserving upsert, matching `Map.set` semantics.
* Row objects (`any` records) are modelled as association lists from column
  name to a rational cell value; an absent key models `undefined`/`null`.
* `Date` values are modelled by their millisecond timestamps (`ℚ`); every
  finite number is a valid date, exactly as `new Date(n)` is valid in JS.
-/

namespace AIK

/-- Insertion-order preserving upsert, the semantics of `map[k] = v` on a
JavaScript object / `Map.set`: an existing key is updated in place, a new key
is appended at the end. -/
def upsert {α : Type} (l : List (String × α)) (k : String) (v : α) :
    List (String × α) :=
  match l with
  | [] => [(k, v)]
  | (k', v') :: rest =>
      if k' = k then (k, v) :: rest else (k', v') :: upsert rest k v

/-- Key lookup in an association list (first match, as in a JS object). -/
def alookup {α : Type} (l : List (String × α)) (k : String) : Option α :=
  match l with
  | [] => none
  | (k', v) :: rest => if k' = k then some v else alookup rest k

/-! ## Metric Aggregator (`src/lib/dataPipeline.ts`, `DataPipeline.recordMetric`) -/

/-- Trend label of a metric aggregation. -/
inductive Trend where
  | increasing | decreasing | stable
deriving DecidableEq, Repr

/-- One entry of `MetricAggregation.history`:
`{date: timestamp, value, source}`. -/
structure HistEntry where
  date : ℚ
  value : ℚ
  source : String
deriving DecidableEq, Repr

/-- `MetricAggregation` from `dataPipeline.ts`.  `min` starts at `Infinity`
(`⊤`) and `max` at `-Infinity` (`⊥`), exactly as in the source. -/
structure MetricAggregation where
  metric : String
  total : ℚ
  average : ℚ
  count : ℕ
  min : WithTop ℚ
  max : WithBot ℚ
  trend : Trend
  lastUpdated : ℚ
  history : List HistEntry
deriving DecidableEq, Repr

/-- The metric registry, a JS `Map` keyed by the string `domain:metric`. -/
abbrev Registry : Type := List (String × MetricAggregation)

/-- The fresh aggregation inserted by `recordMetric` when the key is missing. -/
def freshAggregation (metric : String) (timestamp : ℚ) : MetricAggregation :=
  { metric := metric, total := 0, average := 0, count := 0,
    min := ⊤, max := ⊥, trend := Trend.stable,
    lastUpdated := timestamp, history := [] }

/-- Trend analysis of `recordMetric`: when the (already updated) history has at
least 3 entries, compare the average of the two most recent points with the
average of the two points before them (`history.slice(-3)`). -/
def trendOfLast3 (h : List HistEntry) (old : Trend) : Trend :=
  match h.drop (h.length - 3) with
  | [a, b, c] =>
      let firstAvg := (a.value + b.value) / 2
      let secondAvg := (b.value + c.value) / 2
      if secondAvg > firstAvg * (11/10) then Trend.increasing
      else if secondAvg < firstAvg * (9/10) then Trend.decreasing
      else Trend.stable
  | _ => old

/-- The field updates `recordMetric` performs on the aggregation it looked up
(or freshly created): accumulate `total`/`count`, recompute `average`, update
`min`/`max`, append the history entry, and re-analyse the trend when the new
history has at least three entries. -/
def updateAggregation (a : MetricAggregation) (value timestamp : ℚ)
    (source : String) : MetricAggregation :=
  let total := a.total + value
  let count := a.count + 1
  let history := a.history ++ [⟨timestamp, value, source⟩]
  { a with
    total := total
    count := count
    average := total / (count : ℚ)
    min := Min.min a.min (value : WithTop ℚ)
    max := Max.max a.max (value : WithBot ℚ)
    lastUpdated := timestamp
    history := history
    trend := if 3 ≤ history.length then trendOfLast3 history a.trend
             else a.trend }

/-- `DataPipeline.recordMetric`: look up (or create) the aggregation keyed by
`domain:metric` and apply the updates. -/
def recordMetric (reg : Registry) (metric : String) (value : ℚ)
    (domain : String) (timestamp : ℚ) (source : String) : Registry :=
  let key := domain ++ ":" ++ metric
  let base := (alookup reg key).getD (freshAggregation metric timestamp)
  upsert reg key (updateAggregation base value timestamp source)

/-- The aggregation invariant asserted by the specification: for every
aggregation in the registry, `count` is the history length, `average` is
`total / count`, and `min`/`max` are the minimum/maximum of the history
values. -/
def AggInvariant (reg : Registry) : Prop :=
  ∀ p ∈ reg,
    (p.2.count = p.2.history.length ∧
     p.2.average = p.2.total / (p.2.count : ℚ)) ∧
    (p.2.min = (p.2.history.map HistEntry.value).minimum ∧
     p.2.max = (p.2.history.map HistEntry.value).maximum)

instance (reg : Registry) : Decidable (AggInvariant reg) :=
  List.decidableBAll _ reg

/-- Registries in which every aggregation with fewer than three history
entries still carries the initial `stable` trend. -/
def ShortHistoryStable (reg : Registry) : Prop :=
  ∀ p ∈ reg, p.2.history.length < 3 → p.2.trend = Trend.stable

instance (reg : Registry) : Decidable (ShortHistoryStable reg) :=
  List.decidableBAll _ reg

/-! ## Metric-to-metric correlation heuristic
(`src/lib/dataPipeline.ts`, `DataPipeline.calculateCorrelation`) -/

/-- `DataPipeline.calculateCorrelation`: trend bonus `0.3` (same trend) or
`-0.1` (different trend), plus `0.2` when the averages differ by less than 10,
clamped into `[-1, 1]` by `Math.min(1, Math.max(-1, …))`. -/
def calculateCorrelation (m1 m2 : MetricAggregation) : ℚ :=
  let trendCorrelation : ℚ := if m1.trend = m2.trend then 3/10 else -(1/10)
  let valueCorrelation : ℚ := if |m1.average - m2.average| < 10 then 2/10 else 0
  Min.min 1 (Max.max (-1) (trendCorrelation + valueCorrelation))

/-- The metric-to-metric coefficient as the spec sentence words it: a `0.3`
bonus for a shared trend label plus a `0.2` bonus for close averages and no
other contribution, clamped to `[-1, 1]`.  Written from the spec for
comparison with `calculateCorrelation`, which the source defines. -/
def specMetricCorrelation (m1 m2 : MetricAggregation) : ℚ :=
  let trendBonus : ℚ := if m1.trend = m2.trend then 3/10 else 0
  let valueBonus : ℚ := if |m1.average - m2.average| < 10 then 2/10 else 0
  Min.min 1 (Max.max (-1) (trendBonus + valueBonus))

/-! ## Domain classification

`DataPipeline.detectDomain` (`src/lib/dataPipeline.ts`) and
`DomainAnalyzer.detectDomain` (`src/lib/database.ts`). -/

/-- JS `toLowerCase` on the character list of a string (`Char.toLower` is the
ASCII lowercase map, which is what the source's keyword tests rely on). -/
def jsToLower (s : String) : String :=
  String.mk (s.data.map Char.toLower)

/-- Does the character list start with the given needle? -/
def listStartsWith : List Char → List Char → Bool
  | _, [] => true
  | [], _ :: _ => false
  | c :: cs, d :: ds => c = d && listStartsWith cs ds

/-- Does the character list contain the needle as a contiguous substring? -/
def listHasInfix : List Char → List Char → Bool
  | [], needle => needle.isEmpty
  | c :: rest, needle => listStartsWith (c :: rest) needle || listHasInfix rest needle

/-- JS `haystack.includes(needle)` on strings. -/
def jsIncludes (haystack needle : String) : Bool :=
  listHasInfix haystack.data needle.data

/-- A materialized row: an ordered mapping from column name to a scalar cell.
Cells are modelled as rational numbers; an absent key models `undefined`. -/
abbrev Row : Type := List (String × ℚ)

/-- `row[col]` on a materialized row. -/
def rowGet (r : Row) (c : String) : Option ℚ := alookup r c

/-- The dataset shape consumed by `DataPipeline.detectDomain` (only the
column names are inspected there). -/
structure PipelineDataset where
  name : String
  columns : List String
  data : List Row
deriving Repr

/-- `DataPipeline.detectDomain`: checks the lowercased column names for
sports indicators first, then financial, then health, else `general`. -/
def pipelineDetectDomain (dataset : PipelineDataset) : String :=
  let columns := dataset.columns.map jsToLower
  if columns.any fun col =>
      jsIncludes col "goal" || jsIncludes col "score" || jsIncludes col "match"
  then "sports"
  else if columns.any fun col =>
      jsIncludes col "money" || jsIncludes col "cost" ||
      jsIncludes col "price" || jsIncludes col "amount"
  then "financial"
  else if columns.any fun col =>
      jsIncludes col "weight" || jsIncludes col "calorie" ||
      jsIncludes col "exercise"
  then "health"
  else "general"

/-- `DomainAnalyzer.isMoneyColumn` (the keyword half; its `data` argument is
unused by the source). -/
def isMoneyColumn (col : String) : Bool :=
  ["money", "amount", "cost", "price", "savings", "spending", "expense",
   "income", "revenue", "budget", "cash", "dollar", "euro", "pound",
   "currency"].any fun keyword => jsIncludes (jsToLower col) keyword

/-- `DomainAnalyzer.isSportsPerformanceColumn`. -/
def isSportsPerformanceColumn (col : String) : Bool :=
  ["goal", "assist", "score", "point", "win", "loss", "match", "game",
   "performance", "fitness", "exercise", "workout"].any
    fun keyword => jsIncludes (jsToLower col) keyword

/-- `DomainAnalyzer.isHealthColumn`. -/
def isHealthColumn (col : String) : Bool :=
  ["weight", "height", "bmi", "heart", "blood", "pressure", "sleep",
   "calories", "steps", "mood", "energy"].any
    fun keyword => jsIncludes (jsToLower col) keyword

/-- `DomainAnalyzer.isProductivityColumn`. -/
def isProductivityColumn (col : String) : Bool :=
  ["task", "todo", "project", "work", "study", "read", "write", "complete",
   "done", "progress"].any fun keyword => jsIncludes (jsToLower col) keyword

/-- `String(value)` for a sampled cell.  A missing cell prints as
`"undefined"`; numeric cells are printed from the rational model (integers
print as their digits; this embedding materializes rows as numbers, so the
decimal-point and currency-symbol value patterns below are exercised exactly
by the digit characters the printer emits). -/
def cellString (v : Option ℚ) : String :=
  match v with
  | none => "undefined"
  | some q =>
      if q.den = 1 then toString q.num
      else toString q.num ++ "/" ++ toString q.den

/-- The value-pattern regex `/\d+\.\d{2}/` as an existence-of-substring test:
a digit, a dot, then two digits somewhere in the string. -/
def hasDecimalTwoPlaces : List Char → Bool
  | c1 :: c2 :: c3 :: c4 :: rest =>
      (c1.isDigit && c2 = '.' && c3.isDigit && c4.isDigit) ||
      hasDecimalTwoPlaces (c2 :: c3 :: c4 :: rest)
  | _ => false

/-- `DomainAnalyzer.hasMoneyValues`: any of the first ten sampled values
contains a currency symbol or matches `\d+\.\d{2}`. -/
def hasMoneyValues (data : List Row) (col : String) : Bool :=
  (data.take 10).any fun row =>
    let s := cellString (rowGet row col)
    s.data.any (fun c => c ∈ ['$', '€', '£', '¥', '₹']) ||
    hasDecimalTwoPlaces s.data

/-- `DomainAnalyzer.hasSportsValues`: case-insensitive keyword test on the
first ten sampled values. -/
def hasSportsValues (data : List Row) (col : String) : Bool :=
  (data.take 10).any fun row =>
    let s := jsToLower (cellString (rowGet row col))
    ["goal", "assist", "win", "loss", "match"].any fun k => jsIncludes s k

/-- `DomainAnalyzer.hasHealthValues`. -/
def hasHealthValues (data : List Row) (col : String) : Bool :=
  (data.take 10).any fun row =>
    let s := jsToLower (cellString (rowGet row col))
    ["weight", "height", "bmi", "sleep", "calories"].any fun k => jsIncludes s k

/-- `DomainAnalyzer.hasProductivityValues`. -/
def hasProductivityValues (data : List Row) (col : String) : Bool :=
  (data.take 10).any fun row =>
    let s := jsToLower (cellString (rowGet row col))
    ["task", "todo", "project", "complete", "done"].any fun k => jsIncludes s k

/-- `[...new Set(list)]`: order-preserving de-duplication keeping the first
occurrence of each element. -/
def dedupFirst (l : List String) : List String :=
  l.foldl (fun acc i => if i ∈ acc then acc else acc ++ [i]) []

/-- `DomainAnalyzer.getDomainIndicators`: per column, push the matching
indicator tags, then de-duplicate. -/
def getDomainIndicators (data : List Row) (columns : List String) : List String :=
  dedupFirst <| columns.foldl (fun acc col =>
    acc ++
    (if isMoneyColumn col then ["money"] else []) ++
    (if hasMoneyValues data col then ["currency"] else []) ++
    (if isSportsPerformanceColumn col then ["sports"] else []) ++
    (if hasSportsValues data col then ["performance"] else []) ++
    (if isHealthColumn col then ["health"] else []) ++
    (if hasHealthValues data col then ["wellness"] else []) ++
    (if isProductivityColumn col then ["productivity"] else []) ++
    (if hasProductivityValues data col then ["tasks"] else [])) []

/-- `DomainAnalyzer.isFinancialData`. -/
def isFinancialData (indicators : List String) (columns : List String) : Bool :=
  indicators.contains "money" || indicators.contains "currency" ||
  columns.any fun col => isMoneyColumn col

/-- `DomainAnalyzer.isSportsData`. -/
def isSportsData (indicators : List String) (columns : List String) : Bool :=
  indicators.contains "sports" || indicators.contains "performance" ||
  columns.any fun col => isSportsPerformanceColumn col

/-- `DomainAnalyzer.isHealthData`. -/
def isHealthData (indicators : List String) (columns : List String) : Bool :=
  indicators.contains "health" || indicators.contains "wellness" ||
  columns.any fun col => isHealthColumn col

/-- `DomainAnalyzer.isProductivityData`. -/
def isProductivityData (indicators : List String) (columns : List String) : Bool :=
  indicators.contains "productivity" || indicators.contains "tasks" ||
  columns.any fun col => isProductivityColumn col

/-- Confidence: `0.5` base, `+0.3` for the column-keyword indicator, `+0.2`
for the value-pattern indicator, capped at `1.0` (same shape for every
domain). -/
def domainConfidence (indicators : List String) (kw pat : String) : ℚ :=
  let c1 : ℚ := if indicators.contains kw then 1/2 + 3/10 else 1/2
  let c2 : ℚ := if indicators.contains pat then c1 + 2/10 else c1
  Min.min c2 1

/-- `DataDomain` from `database.ts`. -/
structure DataDomain where
  type : String
  confidence : ℚ
  indicators : List String
  columns : List String
deriving Repr

/-- `DomainAnalyzer.detectDomain`: first-match-wins in the order financial →
sports → health → productivity → general. -/
def analyzerDetectDomain (data : List Row) (columns : List String) : DataDomain :=
  let indicators := getDomainIndicators data columns
  if isFinancialData indicators columns then
    ⟨"financial", domainConfidence indicators "money" "currency",
     indicators, columns⟩
  else if isSportsData indicators columns then
    ⟨"sports", domainConfidence indicators "sports" "performance",
     indicators, columns⟩
  else if isHealthData indicators columns then
    ⟨"health", domainConfidence indicators "health" "wellness",
     indicators, columns⟩
  else if isProductivityData indicators columns then
    ⟨"productivity", domainConfidence indicators "productivity" "tasks",
     indicators, columns⟩
  else ⟨"general", 1/2, indicators, columns⟩

/-! ## Correlation Engine (`src/lib/correlationAnalyzer.ts`) -/

/-- `DatasetMetadata` from `correlationAnalyzer.ts`.  `columnTypes` is the
column-name-to-type-name record. -/
structure DatasetMetadata where
  id : String
  name : String
  domain : String
  columns : List String
  columnTypes : List (String × String)
  data : List Row
deriving Repr

/-- `dataset.columnTypes[col] === 'number'`. -/
def isNumberColumn (d : DatasetMetadata) (col : String) : Bool :=
  alookup d.columnTypes col = some "number"

/-- `n * Σxy − Σx·Σy`, the numerator of the Pearson formula
(`x.reduce((sum, xi, i) => sum + xi * y[i], 0)` is the zipped product sum). -/
def pearsonNum (x y : List ℚ) : ℚ :=
  (x.length : ℚ) * (List.zipWith (· * ·) x y).sum - x.sum * y.sum

/-- `(n·Σx² − (Σx)²) · (n·Σy² − (Σy)²)`, the radicand under the square root of
the Pearson denominator (the source uses `n = x.length` for both factors). -/
def pearsonRad (x y : List ℚ) : ℚ :=
  ((x.length : ℚ) * (x.map fun a => a * a).sum - x.sum * x.sum) *
  ((x.length : ℚ) * (y.map fun a => a * a).sum - y.sum * y.sum)

/-- The quantity `n·Σx² − (Σx)²` (n² times the variance) of one vector, the
factor appearing in the Pearson radicand. -/
def varNum (l : List ℚ) : ℚ :=
  (l.length : ℚ) * (l.map fun a => a * a).sum - l.sum * l.sum

/-- `CorrelationAnalyzer.calculatePearsonCorrelation`: returns 0 on length
mismatch or empty input, returns 0 when the denominator `Math.sqrt(rad)` is 0,
and otherwise divides the numerator by the denominator. -/
noncomputable def calculatePearsonCorrelation (x y : List ℚ) : ℝ :=
  if x.length ≠ y.length ∨ x.length = 0 then 0
  else if Real.sqrt ((pearsonRad x y : ℚ) : ℝ) = 0 then 0
  else ((pearsonNum x y : ℚ) : ℝ) / Real.sqrt ((pearsonRad x y : ℚ) : ℝ)

/-- `CorrelationResult` (the displayed `insight` string is omitted from the
embedding; no claim concerns it). -/
structure CorrelationResult where
  dataset1 : String
  dataset2 : String
  correlation : ℝ
  sharedColumns : List String
  confidence : ℝ

/-- `CorrelationAnalyzer.findSharedColumns`. -/
def findSharedColumns (d1 d2 : DatasetMetadata) : List String :=
  d1.columns.filter fun col => d2.columns.contains col

/-- `CorrelationAnalyzer.calculateColumnCorrelation`: project the column out
of both datasets (dropping absent cells), return `null` when either side is
empty, else truncate both to the shorter length and run Pearson. -/
noncomputable def calculateColumnCorrelation (data1 data2 : List Row)
    (column : String) : Option ℝ :=
  let values1 := data1.filterMap fun row => rowGet row column
  let values2 := data2.filterMap fun row => rowGet row column
  if values1.length = 0 ∨ values2.length = 0 then none
  else
    let minLength := Nat.min values1.length values2.length
    some (calculatePearsonCorrelation (values1.take minLength)
      (values2.take minLength))

/-- The per-shared-column Pearson coefficients that the shared-column
strategies accumulate: one entry per shared column typed `number` in both
datasets whose `calculateColumnCorrelation` is not `null`. -/
noncomputable def sharedColumnCoefficients (d1 d2 : DatasetMetadata) : List ℝ :=
  (findSharedColumns d1 d2).filterMap fun col =>
    if isNumberColumn d1 col ∧ isNumberColumn d2 col then
      calculateColumnCorrelation d1.data d2.data col
    else none

/-- `CorrelationAnalyzer.analyzeSameDomainCorrelation`: requires equal
domains and at least one usable shared numeric column; reports the average of
the per-column coefficients, unclamped and without absolute value. -/
noncomputable def analyzeSameDomainCorrelation (d1 d2 : DatasetMetadata) :
    Option CorrelationResult :=
  if d1.domain ≠ d2.domain then none
  else if findSharedColumns d1 d2 = [] then none
  else
    let coeffs := sharedColumnCoefficients d1 d2
    if coeffs.length = 0 then none
    else
      let avgCorrelation := coeffs.sum / (coeffs.length : ℝ)
      some ⟨d1.name, d2.name, avgCorrelation, findSharedColumns d1 d2,
        Min.min (avgCorrelation * (12/10)) 1⟩

/-- `CorrelationAnalyzer.analyzeSharedColumnCorrelation`: like the same-domain
strategy but with no domain precondition, a `|avg| ≥ 0.2` acceptance
threshold, and the absolute value reported as the coefficient. -/
noncomputable def analyzeSharedColumnCorrelation (d1 d2 : DatasetMetadata) :
    Option CorrelationResult :=
  if findSharedColumns d1 d2 = [] then none
  else
    let coeffs := sharedColumnCoefficients d1 d2
    if coeffs.length = 0 then none
    else
      let avgCorrelation := coeffs.sum / (coeffs.length : ℝ)
      if |avgCorrelation| < 2/10 then none
      else
        some ⟨d1.name, d2.name, |avgCorrelation|, findSharedColumns d1 d2,
          Min.min (|avgCorrelation| * (11/10)) 1⟩

/-- `CorrelationAnalyzer.isDateColumn`: some of the first ten present cells
parses as a valid date.  Rows are materialized as numbers and every finite
number is a valid `Date`, so this is presence of any cell in the sample. -/
def isDateColumn (data : List Row) (col : String) : Bool :=
  (data.take 10).any fun row => (rowGet row col).isSome

/-- The `(date, value)` series `calculateTimeBasedCorrelation` builds for one
dataset: project the date and value columns (dropping rows where either is
missing) and stable-sort ascending by date. -/
def timeSeriesOf (data : List Row) (dateCol valueCol : String) :
    List (ℚ × ℚ) :=
  (data.filterMap fun row =>
    match rowGet row dateCol, rowGet row valueCol with
    | some d, some v => some (d, v)
    | _, _ => none).mergeSort fun a b => a.1 ≤ b.1

/-- `CorrelationAnalyzer.alignTimeSeries`: for each point of the first series,
pair it with the first point of the second series whose date is within one day
(86 400 000 ms). -/
def alignTimeSeries (series1 series2 : List (ℚ × ℚ)) : List (ℚ × ℚ) :=
  series1.filterMap fun item1 =>
    match series2.find? (fun item2 => |item1.1 - item2.1| ≤ 86400000) with
    | some item2 => some (item1.2, item2.2)
    | none => none

/-- `CorrelationAnalyzer.calculateTimeBasedCorrelation`: build both series,
return `null` when either is empty or fewer than three points align, else run
Pearson over the aligned value vectors. -/
noncomputable def calculateTimeBasedCorrelation (data1 data2 : List Row)
    (dateCol1 dateCol2 valueCol1 valueCol2 : String) : Option ℝ :=
  let timeSeries1 := timeSeriesOf data1 dateCol1 valueCol1
  let timeSeries2 := timeSeriesOf data2 dateCol2 valueCol2
  if timeSeries1.length = 0 ∨ timeSeries2.length = 0 then none
  else
    let alignedData := alignTimeSeries timeSeries1 timeSeries2
    if alignedData.length < 3 then none
    else some (calculatePearsonCorrelation (alignedData.map Prod.fst)
      (alignedData.map Prod.snd))

/-- `CorrelationAnalyzer.analyzeTimeBasedCorrelation`: needs a date-like
column and a numeric column on each side (the first of each is used), and
only reports when the time-based correlation exists and `|corr| ≥ 0.3`; the
reported coefficient is `Math.abs(correlation)`. -/
noncomputable def analyzeTimeBasedCorrelation (d1 d2 : DatasetMetadata) :
    Option CorrelationResult :=
  let dateColumns1 := d1.columns.filter fun col => isDateColumn d1.data col
  let dateColumns2 := d2.columns.filter fun col => isDateColumn d2.data col
  if dateColumns1.length = 0 ∨ dateColumns2.length = 0 then none
  else
    let numericColumns1 := d1.columns.filter fun col => isNumberColumn d1 col
    let numericColumns2 := d2.columns.filter fun col => isNumberColumn d2 col
    if numericColumns1.length = 0 ∨ numericColumns2.length = 0 then none
    else
      match calculateTimeBasedCorrelation d1.data d2.data
        (dateColumns1.headD "") (dateColumns2.headD "")
        (numericColumns1.headD "") (numericColumns2.headD "") with
      | none => none
      | some correlation =>
          if |correlation| < 3/10 then none
          else
            some ⟨d1.name, d2.name, |correlation|, ["time"],
              Min.min (|correlation| * (11/10)) 1⟩

/-- The list of date-aligned `(value1, value2)` pairs that the time-aligned
strategy correlates for a pair of datasets ( `[]` when either dataset lacks a
date-like or numeric column, mirroring the strategy's early exits). -/
def timeAlignedPairs (d1 d2 : DatasetMetadata) : List (ℚ × ℚ) :=
  let dateColumns1 := d1.columns.filter fun col => isDateColumn d1.data col
  let dateColumns2 := d2.columns.filter fun col => isDateColumn d2.data col
  if dateColumns1.length = 0 ∨ dateColumns2.length = 0 then []
  else
    let numericColumns1 := d1.columns.filter fun col => isNumberColumn d1 col
    let numericColumns2 := d2.columns.filter fun col => isNumberColumn d2 col
    if numericColumns1.length = 0 ∨ numericColumns2.length = 0 then []
    else
      alignTimeSeries
        (timeSeriesOf d1.data (dateColumns1.headD "") (numericColumns1.headD ""))
        (timeSeriesOf d2.data (dateColumns2.headD "") (numericColumns2.headD ""))

/-- The Pearson coefficient over the date-aligned value pairs of the
time-aligned strategy. -/
noncomputable def alignedPearson (d1 d2 : DatasetMetadata) : ℝ :=
  calculatePearsonCorrelation ((timeAlignedPairs d1 d2).map Prod.fst)
    ((timeAlignedPairs d1 d2).map Prod.snd)

/-- A concrete three-row dataset with the single numeric column `x` holding
`1, 2, 3` (used to exercise the correlation strategies). -/
def dsAsc : DatasetMetadata :=
  ⟨"a", "A", "general", ["x"], [("x", "number")],
    [[("x", 1)], [("x", 2)], [("x", 3)]]⟩

/-- A second dataset with the same ascending `x` column. -/
def dsAsc2 : DatasetMetadata :=
  ⟨"b", "B", "general", ["x"], [("x", "number")],
    [[("x", 1)], [("x", 2)], [("x", 3)]]⟩

/-- A dataset with the `x` column descending `3, 2, 1`. -/
def dsDesc : DatasetMetadata :=
  ⟨"c", "C", "general", ["x"], [("x", "number")],
    [[("x", 3)], [("x", 2)], [("x", 1)]]⟩

/-! ## Unit Extractor (`src/unnamed/part_017`, `NLPProcessor`)

The two regex passes of `extractMetrics` are modelled by character-level
scanners that reproduce the JavaScript `exec` loop: at each position try to
match; on success continue after the match, on failure retry one character
later.  Both patterns are backtracking-free on inspection (giving characters
back from any greedy run can never enable a later required character class),
so maximal-munch scanning is exact. -/

/-- JS `\s` for the whitespace characters occurring in plain text. -/
def isJsSpace (c : Char) : Bool :=
  c = ' ' || c = '\t' || c = '\n' || c = '\r'

/-- The natural number denoted by a run of decimal digit characters. -/
def digitsToNat (ds : List Char) : ℕ :=
  ds.foldl (fun acc c => 10 * acc + (c.toNat - '0'.toNat)) 0

/-- Numeric value of a digit run followed by an optional fraction run:
`parseFloat` of `\d+(\.\d+)?`. -/
def decimalValue (intPart fracPart : List Char) : ℚ :=
  (digitsToNat intPart : ℚ) +
    (digitsToNat fracPart : ℚ) / (10 : ℚ) ^ fracPart.length

/-- Split a maximal run satisfying the predicate off the front. -/
def takeRun (p : Char → Bool) (cs : List Char) : List Char × List Char :=
  (cs.takeWhile p, cs.dropWhile p)

/-- Scan the optional `(?:\.\d+)?` fraction after the integer digits. -/
def scanFraction (cs : List Char) : List Char × List Char :=
  match cs with
  | '.' :: rest =>
      let (fs, rest') := takeRun Char.isDigit rest
      if fs.isEmpty then ([], cs) else (fs, rest')
  | _ => ([], cs)

/-- One `exec` step of the first pass `/(\d+(?:\.\d+)?)\s+([a-zA-Z]+)/g`:
returns the parsed value, the lowercased unit word and the remaining
characters, or `none` if no match starts at this position. -/
def scanNumberUnit (cs : List Char) : Option (ℚ × String × List Char) :=
  match cs with
  | c :: _ =>
      if c.isDigit then
        let (ds, r1) := takeRun Char.isDigit cs
        let (fs, r2) := scanFraction r1
        let (ws, r3) := takeRun isJsSpace r2
        if ws.isEmpty then none
        else
          let (ls, r4) := takeRun Char.isAlpha r3
          if ls.isEmpty then none
          else some (decimalValue ds fs, String.mk (ls.map Char.toLower), r4)
      else none
  | [] => none

/-- The `exec` loop of the first metric pass, fuelled by the input length. -/
def scanPass1 : ℕ → List Char → List (ℚ × String)
  | 0, _ => []
  | _, [] => []
  | fuel + 1, c :: rest =>
      match scanNumberUnit (c :: rest) with
      | some (v, u, r) => (v, u) :: scanPass1 fuel r
      | none => scanPass1 fuel rest

/-- The fixed `unitMap` normalization table of `extractMetrics`, in source
order. -/
def unitMap : List (String × String) :=
  [("goal", "goals"), ("goals", "goals"),
   ("assist", "assists"), ("assists", "assists"),
   ("mile", "miles"), ("miles", "miles"),
   ("km", "kilometers"), ("kilometer", "kilometers"),
   ("kilometers", "kilometers"),
   ("minute", "minutes"), ("minutes", "minutes"),
   ("hour", "hours"), ("hours", "hours"),
   ("day", "days"), ("days", "days"),
   ("week", "weeks"), ("weeks", "weeks"),
   ("month", "months"), ("months", "months"),
   ("year", "years"), ("years", "years"),
   ("pound", "pounds"), ("pounds", "pounds"),
   ("kg", "kilograms"), ("kilogram", "kilograms"),
   ("kilograms", "kilograms"),
   ("point", "points"), ("points", "points"),
   ("score", "score"), ("scores", "score"),
   ("percent", "percentage"), ("percentage", "percentage"),
   ("%", "percentage")]

/-- `unitMap[unit] || unit`. -/
def normalizeUnit (unit : String) : String :=
  (alookup unitMap unit).getD unit

/-- The alternation of the second pass
`(?:goals?|assists?|…|percent)`, as (stem, optional trailing `s`) pairs in
source order. -/
def contextAlternation : List (List Char × Bool) :=
  [("goal".data, true), ("assist".data, true), ("mile".data, true),
   ("kilometer".data, true), ("minute".data, true), ("hour".data, true),
   ("day".data, true), ("week".data, true), ("month".data, true),
   ("year".data, true), ("pound".data, true), ("kilogram".data, true),
   ("point".data, true), ("score".data, true), ("percent".data, false)]

/-- Case-insensitive match of one alternation stem (plus its optional `s`)
against the front of the text; returns the matched characters (lowercased)
and the rest. -/
def matchStem : List Char → List Char → Option (List Char × List Char)
  | [], cs => some ([], cs)
  | _ :: _, [] => none
  | s :: ss, c :: cs =>
      if c.toLower = s then
        match matchStem ss cs with
        | some (m, r) => some (s :: m, r)
        | none => none
      else none

/-- Try the alternation alternatives in order at the current position. -/
def matchAlternation (alts : List (List Char × Bool)) (cs : List Char) :
    Option (List Char × List Char) :=
  match alts with
  | [] => none
  | (stem, optS) :: rest =>
      match matchStem stem cs with
      | some (m, r) =>
          if optS then
            match r with
            | c :: r' => if c.toLower = 's' then some (m ++ ['s'], r') else some (m, r)
            | [] => some (m, r)
          else some (m, r)
      | none => matchAlternation rest cs

/-- One `exec` step of the second pass
`/(\d+(?:\.\d+)?)\s*(?:goals?|…|percent)/gi`: returns the parsed value, the
lowercased matched span and the remaining characters. -/
def scanContextMetric (cs : List Char) : Option (ℚ × String × List Char) :=
  match cs with
  | c :: _ =>
      if c.isDigit then
        let (ds, r1) := takeRun Char.isDigit cs
        let (fs, r2) := scanFraction r1
        let (ws, r3) := takeRun isJsSpace r2
        match matchAlternation contextAlternation r3 with
        | some (m, r4) =>
            let span := (ds ++ (if fs.isEmpty then [] else '.' :: fs) ++
              ws ++ m).map Char.toLower
            some (decimalValue ds fs, String.mk span, r4)
        | none => none
      else none
  | [] => none

/-- The `exec` loop of the second metric pass. -/
def scanPass2 : ℕ → List Char → List (ℚ × String)
  | 0, _ => []
  | _, [] => []
  | fuel + 1, c :: rest =>
      match scanContextMetric (c :: rest) with
      | some (v, span, r) => (v, span) :: scanPass2 fuel r
      | none => scanPass2 fuel rest

/-- The keyword-containment checks the second pass runs on each matched span,
as (keyword, canonical name) pairs in source order. -/
def contextChecks : List (String × String) :=
  [("goal", "goals"), ("assist", "assists"), ("mile", "miles"),
   ("kilometer", "kilometers"), ("minute", "minutes"), ("hour", "hours"),
   ("day", "days"), ("week", "weeks"), ("month", "months"),
   ("year", "years"), ("pound", "pounds"), ("kilogram", "kilograms"),
   ("point", "points"), ("score", "score"), ("percent", "percentage")]

/-- The metrics record built by the NLP extractor. -/
abbrev Metrics : Type := List (String × ℚ)

/-- `NLPProcessor.extractMetrics`: the first pass writes each
`<number> <word>` match under the unit's normalized name; the second pass
re-scans with the known-unit alternation and overwrites by keyword
containment in the matched span. -/
def extractMetrics (text : String) : Metrics :=
  let cs := text.data
  let pass1 := (scanPass1 cs.length cs).foldl
    (fun m (p : ℚ × String) => upsert m (normalizeUnit p.2) p.1) []
  (scanPass2 cs.length cs).foldl
    (fun m (p : ℚ × String) =>
      contextChecks.foldl
        (fun m' (c : String × String) =>
          if jsIncludes p.2 c.1 then upsert m' c.2 p.1 else m') m)
    pass1

/-- Sentiment label. -/
inductive Sentiment where
  | positive | negative | neutral
deriving DecidableEq, Repr

/-- The fixed positive-word list of `NLPProcessor.analyzeSentiment`. -/
def positiveWords : List String :=
  ["good", "great", "excellent", "amazing", "fantastic", "perfect",
   "improved", "better"]

/-- The fixed negative-word list of `NLPProcessor.analyzeSentiment`. -/
def negativeWords : List String :=
  ["bad", "poor", "terrible", "awful", "worse", "needs", "problem", "issue"]

/-- `NLPProcessor.analyzeSentiment`: each list word present in the lowercased
text (substring test) contributes one point to its side's score; the strictly
larger score wins, ties are `neutral`. -/
def analyzeSentiment (text : String) : Sentiment :=
  let lowerText := jsToLower text
  let positiveScore := positiveWords.foldl
    (fun acc w => if jsIncludes lowerText w then acc + 1 else acc) 0
  let negativeScore := negativeWords.foldl
    (fun acc w => if jsIncludes lowerText w then acc + 1 else acc) 0
  if positiveScore > negativeScore then Sentiment.positive
  else if negativeScore > positiveScore then Sentiment.negative
  else Sentiment.neutral

/-- `NLPProcessor.categorizeContent`: fixed keyword sets per category,
substring-tested against the lowercased text. -/
def categorizeContent (text : String) : List (String × List String) :=
  let lowerText := jsToLower text
  let has : String → Bool := fun w => jsIncludes lowerText w
  [("sports_performance",
      if has "goal" || has "assist" || has "score" || has "point"
      then ["performance_metrics"] else []),
   ("health_metrics",
      if has "mile" || has "kilometer" || has "run" || has "exercise"
      then ["fitness_tracking"] else []),
   ("improvement_areas",
      if has "need" || has "better" || has "improve" || has "work on"
      then ["skill_development"] else []),
   ("activities",
      if has "run" || has "exercise" || has "train" || has "practice"
      then ["physical_activity"] else []),
   ("measurements",
      if has "mile" || has "kilometer" || has "minute" || has "hour"
      then ["distance_time"] else []),
   ("food",
      if ["lunch", "dinner", "breakfast", "rice", "curry", "egg", "meal",
          "cook", "kitchen", "dish", "spice", "vegetable", "delicious",
          "taste", "menu", "phenomenal", "recipe", "food", "snack", "eat",
          "eating", "plate", "flavor", "sambar", "thenga", "chutney",
          "cooking", "prepared"].any has
      then ["meal"] else []),
   ("home",
      if ["home", "family", "house", "room", "living", "kitchen", "clean",
          "organize", "decorate", "relax", "comfort", "chores", "sofa",
          "bed", "living room", "dining", "apartment", "residence", "stay",
          "household", "domestic", "tidy", "laundry", "sweep", "mop",
          "vacuum"].any has
      then ["home_life"] else [])]

/-- `NLPProcessor.extractEntities`: fixed keyword sets per entity type,
substring-tested against the lowercased text; matches keep list order. -/
def extractEntities (text : String) : List (String × List String) :=
  let lowerText := jsToLower text
  let keep : List String → List String := fun ws =>
    ws.filter fun w => jsIncludes lowerText w
  [("body_parts", keep ["foot", "feet", "hand", "hands", "leg", "legs",
      "arm", "arms", "head", "eye", "eyes"]),
   ("skills", keep ["goal", "assist", "run", "kick", "pass", "shoot",
      "dribble"]),
   ("activities", keep ["run", "exercise", "train", "practice", "play"]),
   ("measurements", keep ["mile", "kilometer", "minute", "hour", "day"]),
   ("time_periods", keep ["today", "yesterday", "tomorrow", "week", "month",
      "year"]),
   ("food_items", keep ["rice", "curry", "egg", "thenga", "sambar",
      "chutney", "dal", "roti", "bread", "vegetable", "salad", "chicken",
      "fish", "meat", "paneer", "tofu", "soup", "noodle", "pasta", "spice",
      "pepper", "salt", "oil", "ghee", "butter", "milk", "yogurt", "curd",
      "fruit", "banana", "apple", "orange", "mango", "grape", "berry",
      "snack", "sweet", "dessert", "ice cream", "cake", "cookie", "biscuit",
      "juice", "tea", "coffee"]),
   ("home_items", keep ["sofa", "bed", "table", "chair", "lamp", "couch",
      "curtain", "carpet", "rug", "pillow", "blanket", "sheet", "wardrobe",
      "closet", "drawer", "kitchen", "sink", "stove", "oven", "fridge",
      "microwave", "dishwasher", "laundry", "washing machine", "dryer",
      "vacuum", "broom", "mop", "bucket", "towel", "mirror", "toilet",
      "shower", "bathtub", "door", "window", "balcony", "garden", "yard",
      "garage", "fence", "gate", "roof", "wall", "floor", "ceiling", "fan",
      "ac", "heater", "fireplace"])]

/-- `ExtractedData` (its free-form `structuredData` echo of the inputs is
omitted from the embedding; no claim concerns it). -/
structure ExtractedData where
  metrics : Metrics
  categories : List (String × List String)
  entities : List (String × List String)
  sentiment : Sentiment
  confidence : ℚ
deriving DecidableEq, Repr

/-- `NLPProcessor.extractDataWithRules`: the local rule-based extraction,
with the fixed confidence literal `0.7`. -/
def extractDataWithRules (text : String) : ExtractedData :=
  { metrics := extractMetrics text
    categories := categorizeContent text
    entities := extractEntities text
    sentiment := analyzeSentiment text
    confidence := 7/10 }

/-- `NLPProcessor.processLocally`: recover the original text from the prompt
(the regex `/Text: "([^"]+)"/` captures the characters of the embedded text
up to its first quote and fails on an empty capture, throwing
`No text found in prompt`), then run the rule pipeline with the fixed
confidence literal `0.85`. -/
def processLocally (text : String) : Except String ExtractedData :=
  let captured := String.mk (text.data.takeWhile fun c => c ≠ '"')
  if captured = "" then Except.error "No text found in prompt"
  else Except.ok { extractDataWithRules captured with confidence := 85/100 }

/-- The outcome of the external Ollama call, as seen by
`extractDataWithAI`: the service may be unreachable, the API call may throw,
or it returns a response, modelled by its `parseAIResponse` parse shape
(a JSON object yielding extracted data, or plain text without a JSON object,
or text whose JSON block fails to parse). -/
inductive AIOutcome where
  | unavailable
  | apiError
  | jsonData (d : ExtractedData)
  | textNoJson (s : String)
  | badJson (s : String)

/-- `NLPProcessor.parseAIResponse` composed with `callOllama`'s fallback, and
`extractDataWithAI`'s outer catch: a parsed JSON object is used as-is; a
response without (or with unparseable) JSON is re-fed to the rule extractor;
when the service is unreachable or throws, `processLocally` runs on the
prompt — its own failure (re-thrown from `callOllama`'s catch, where the
retry fails identically) lands in the outer catch, which falls back to the
rule extractor on the original text. -/
def extractDataWithAI (ai : AIOutcome) (text : String) : ExtractedData :=
  match ai with
  | AIOutcome.jsonData d => d
  | AIOutcome.textNoJson s => extractDataWithRules s
  | AIOutcome.badJson s => extractDataWithRules s
  | AIOutcome.unavailable =>
      match processLocally text with
      | Except.ok d => d
      | Except.error _ => extractDataWithRules text
  | AIOutcome.apiError =>
      match processLocally text with
      | Except.ok d => d
      | Except.error _ => extractDataWithRules text

/-- Truthiness of `extractedData.metrics.name` in JS: present and nonzero. -/
def metricTruthy (d : ExtractedData) (name : String) : Bool :=
  match alookup d.metrics name with
  | some v => v ≠ 0
  | none => false

/-- Non-emptiness of `extractedData.entities.key` / `categories.key` guarded
by `&& length > 0` in JS. -/
def entryNonempty (l : List (String × List String)) (key : String) : Bool :=
  match alookup l key with
  | some items => !items.isEmpty
  | none => false

/-- `NLPProcessor.detectDomain` (the text-entry variant): keyword checks on
the lowercased text plus extracted metrics/entities, first match in the order
food → home → sports → health → productivity → financial → general. -/
def detectTextDomain (text : String) (d : ExtractedData) : String :=
  let lowerText := jsToLower text
  let has : String → Bool := fun w => jsIncludes lowerText w
  if ["lunch", "dinner", "breakfast", "rice", "curry", "egg", "meal",
      "cook", "kitchen", "dish", "spice", "vegetable", "delicious", "taste",
      "menu", "phenomenal", "recipe", "food", "snack", "eat", "eating",
      "plate", "flavor", "sambar", "thenga", "chutney", "cooking",
      "prepared"].any has ||
     entryNonempty d.entities "food_items" ||
     entryNonempty d.categories "food" then "food"
  else if ["home", "family", "house", "room", "living", "kitchen", "clean",
      "organize", "decorate", "relax", "comfort", "chores", "sofa", "bed",
      "living room", "dining", "apartment", "residence", "stay",
      "household", "domestic", "tidy", "laundry", "sweep", "mop",
      "vacuum"].any has ||
     entryNonempty d.entities "home_items" ||
     entryNonempty d.categories "home" then "home"
  else if has "goal" || has "assist" || has "foot" || has "soccer" ||
     has "football" || metricTruthy d "goals" || metricTruthy d "assists"
  then "sports"
  else if has "mile" || has "run" || has "exercise" || has "workout" ||
     metricTruthy d "miles" || metricTruthy d "kilometers" then "health"
  else if has "task" || has "project" || has "work" || has "meeting"
  then "productivity"
  else if has "dollar" || has "money" || has "cost" || has "price" ||
     has "budget" then "financial"
  else "general"

/-- `NLPResult` (the insight and recommendation display strings are omitted
from the embedding; no claim concerns them). -/
structure NLPResult where
  originalText : String
  extractedData : ExtractedData
  domain : String
deriving DecidableEq, Repr

/-- The body of `NLPProcessor.processText` before its outer catch: extract
(every internal failure is already handled inside `extractDataWithAI`),
detect the domain, assemble the result. -/
def processTextBody (ai : AIOutcome) (text : String) :
    Except String NLPResult :=
  let extractedData := extractDataWithAI ai text
  let domain := detectTextDomain text extractedData
  Except.ok ⟨text, extractedData, domain⟩

/-- `NLPProcessor.getFallbackResult`: the defaults returned when processing
fails — empty metrics, neutral sentiment, confidence `0.0`. -/
def getFallbackResult (text : String) : NLPResult :=
  ⟨text, ⟨[], [], [], Sentiment.neutral, 0⟩, "general"⟩

/-- `NLPProcessor.processText`: the body wrapped in the outer catch that
degrades to `getFallbackResult`. -/
def processText (ai : AIOutcome) (text : String) : NLPResult :=
  match processTextBody ai text with
  | Except.ok r => r
  | Except.error _ => getFallbackResult text

/-! ## Helper lemmas -/

theorem mem_upsert {α : Type} {l : List (String × α)} {k : String} {v : α}
    {p : String × α} (hp : p ∈ upsert l k v) : p = (k, v) ∨ p ∈ l := by
  induction l with
  | nil =>
      simp only [upsert, List.mem_singleton] at hp
      exact Or.inl hp
  | cons q rest ih =>
      obtain ⟨k', v'⟩ := q
      simp only [upsert] at hp
      by_cases hk : k' = k
      · rw [if_pos hk] at hp
        rcases List.mem_cons.mp hp with h | h
        · exact Or.inl h
        · exact Or.inr (List.mem_cons_of_mem _ h)
      · rw [if_neg hk] at hp
        rcases List.mem_cons.mp hp with h | h
        · exact Or.inr (h ▸ List.mem_cons_self _ _)
        · rcases ih h with h' | h'
          · exact Or.inl h'
          · exact Or.inr (List.mem_cons_of_mem _ h')

theorem alookup_upsert_self {α : Type} (l : List (String × α)) (k : String)
    (v : α) : alookup (upsert l k v) k = some v := by
  induction l with
  | nil => simp [upsert, alookup]
  | cons q rest ih =>
      obtain ⟨k', v'⟩ := q
      simp only [upsert]
      by_cases hk : k' = k
      · rw [if_pos hk]; simp [alookup]
      · rw [if_neg hk]; simp only [alookup, if_neg hk]; exact ih

theorem alookup_mem {α : Type} {l : List (String × α)} {k : String} {a : α}
    (h : alookup l k = some a) : (k, a) ∈ l := by
  induction l with
  | nil => simp [alookup] at h
  | cons q rest ih =>
      obtain ⟨k', v'⟩ := q
      simp only [alookup] at h
      by_cases hk : k' = k
      · rw [if_pos hk] at h
        cases h
        exact hk ▸ List.mem_cons_self _ _
      · rw [if_neg hk] at h
        exact List.mem_cons_of_mem _ (ih h)

theorem foldl_count_eq_countP (p : String → Bool) (l : List String) :
    ∀ acc : ℕ,
      l.foldl (fun acc w => if p w then acc + 1 else acc) acc =
        acc + l.countP p := by
  induction l with
  | nil => intro acc; simp
  | cons w rest ih =>
      intro acc
      rw [List.foldl_cons, List.countP_cons]
      by_cases hw : p w
      · rw [if_pos hw, ih, if_pos hw]; omega
      · rw [if_neg hw, ih, if_neg hw]; omega

/-! ## Claim theorems -/

/-- Claim C8, counterexample: for aggregations with different trend labels and
averages within 10 of each other, the code yields `-0.1 + 0.2 = 0.1`, while
the claimed "0.3 same-trend bonus plus 0.2 close-average bonus and no other
contribution" yields `0.2` — the claim omits the `-0.1` penalty for differing
trends. -/
theorem claim_C8_counterexample :
    calculateCorrelation
        ⟨"m1", 0, 5, 0, ⊤, ⊥, Trend.increasing, 0, []⟩
        ⟨"m2", 0, 6, 0, ⊤, ⊥, Trend.stable, 0, []⟩ = 1/10 ∧
    specMetricCorrelation
        ⟨"m1", 0, 5, 0, ⊤, ⊥, Trend.increasing, 0, []⟩
        ⟨"m2", 0, 6, 0, ⊤, ⊥, Trend.stable, 0, []⟩ = 2/10 ∧
    (1/10 : ℚ) ≠ 2/10 := by
  have ht : Trend.increasing ≠ Trend.stable := by decide
  refine ⟨?_, ?_, by norm_num⟩
  · simp only [calculateCorrelation]
    rw [if_neg ht]
    norm_num [min_def, max_def]
  · simp only [specMetricCorrelation]
    rw [if_neg ht]
    norm_num [min_def, max_def]

/-- Claim C8, amended: the metric-to-metric coefficient is a `0.3` bonus when
the two aggregations carry the same trend label and a `-0.1` penalty when they
do not, plus a `0.2` bonus when their averages differ by less than 10; the
`[-1, 1]` clamp never alters this sum. -/
theorem claim_C8 (m1 m2 : MetricAggregation) :
    calculateCorrelation m1 m2 =
      (if m1.trend = m2.trend then 3/10 else -(1/10)) +
      (if |m1.average - m2.average| < 10 then 2/10 else 0) := by
  unfold calculateCorrelation
  by_cases ht : m1.trend = m2.trend <;>
    by_cases hv : |m1.average - m2.average| < 10 <;>
      simp only [ht, hv, if_true, if_false, if_pos, if_neg] <;> norm_num

/-- Claim C5: sentiment is decided by comparing how many words of the fixed
positive list and of the fixed negative list occur in the lowercased text
(`lowerText.includes(word)`, one count per list word): strictly more positive
hits give `positive`, strictly more negative hits give `negative`, ties give
`neutral`. -/
theorem claim_C5 (text : String) :
    (analyzeSentiment text = Sentiment.positive ↔
      negativeWords.countP (fun w => jsIncludes (jsToLower text) w) <
        positiveWords.countP (fun w => jsIncludes (jsToLower text) w)) ∧
    (analyzeSentiment text = Sentiment.negative ↔
      positiveWords.countP (fun w => jsIncludes (jsToLower text) w) <
        negativeWords.countP (fun w => jsIncludes (jsToLower text) w)) ∧
    (analyzeSentiment text = Sentiment.neutral ↔
      positiveWords.countP (fun w => jsIncludes (jsToLower text) w) =
        negativeWords.countP (fun w => jsIncludes (jsToLower text) w)) := by
  have hp := foldl_count_eq_countP
    (fun w => jsIncludes (jsToLower text) w) positiveWords 0
  have hn := foldl_count_eq_countP
    (fun w => jsIncludes (jsToLower text) w) negativeWords 0
  rw [Nat.zero_add] at hp hn
  simp only [analyzeSentiment, hp, hn]
  split_ifs with h1 h2
  · refine ⟨⟨fun _ => h1, fun _ => rfl⟩,
      ⟨fun hc => (nomatch hc), fun hc => absurd hc ?_⟩,
      ⟨fun hc => (nomatch hc), fun hc => absurd hc ?_⟩⟩ <;> omega
  · refine ⟨⟨fun hc => (nomatch hc), fun hc => absurd hc ?_⟩,
      ⟨fun _ => h2, fun _ => rfl⟩,
      ⟨fun hc => (nomatch hc), fun hc => absurd hc ?_⟩⟩ <;> omega
  · refine ⟨⟨fun hc => (nomatch hc), fun hc => absurd hc ?_⟩,
      ⟨fun hc => (nomatch hc), fun hc => absurd hc ?_⟩,
      ⟨fun _ => ?_, fun _ => rfl⟩⟩ <;> omega

theorem updateAggregation_invariant (a : MetricAggregation)
    (value timestamp : ℚ) (source : String)
    (hc : a.count = a.history.length)
    (hmin : a.min = (a.history.map HistEntry.value).minimum)
    (hmax : a.max = (a.history.map HistEntry.value).maximum) :
    ((updateAggregation a value timestamp source).count =
        (updateAggregation a value timestamp source).history.length ∧
      (updateAggregation a value timestamp source).average =
        (updateAggregation a value timestamp source).total /
          ((updateAggregation a value timestamp source).count : ℚ)) ∧
    ((updateAggregation a value timestamp source).min =
        ((updateAggregation a value timestamp source).history.map
          HistEntry.value).minimum ∧
      (updateAggregation a value timestamp source).max =
        ((updateAggregation a value timestamp source).history.map
          HistEntry.value).maximum) := by
  refine ⟨⟨?_, rfl⟩, ?_, ?_⟩
  · simp [updateAggregation, hc]
  · simp only [updateAggregation, List.map_append, List.map_cons,
      List.map_nil]
    rw [List.minimum_concat, hmin]
  · simp only [updateAggregation, List.map_append, List.map_cons,
      List.map_nil]
    rw [List.maximum_concat, hmax]

/-- Claim C1: after every `recordMetric` call, every aggregation in the
registry has `count` equal to its history length, `average` equal to
`total / count`, and `min`/`max` equal to the minimum/maximum of its history
values — the invariant is preserved from any registry satisfying it (and the
empty initial registry satisfies it trivially). -/
theorem claim_C1 (reg : Registry) (metric : String) (value : ℚ)
    (domain : String) (timestamp : ℚ) (source : String)
    (h : AggInvariant reg) :
    AggInvariant (recordMetric reg metric value domain timestamp source) := by
  intro p hp
  simp only [recordMetric] at hp
  rcases mem_upsert hp with hpe | hpl
  · rcases hb : alookup reg (domain ++ ":" ++ metric) with _ | a
    · rw [hb, Option.getD_none] at hpe
      subst hpe
      exact updateAggregation_invariant _ _ _ _ rfl rfl rfl
    · rw [hb, Option.getD_some] at hpe
      have ha := h (domain ++ ":" ++ metric, a) (alookup_mem hb)
      subst hpe
      exact updateAggregation_invariant _ _ _ _ ha.1.1 ha.2.1 ha.2.2
  · exact h p hpl

/-- Claim C1, witness: the invariant holds of the empty registry and, by the
theorem, of the registry after one concrete `recordMetric` call. -/
theorem claim_C1_witness :
    AggInvariant [] ∧
    AggInvariant (recordMetric [] "goals" 2 "sports" 0 "src") :=
  ⟨(fun _p hp => nomatch hp),
   claim_C1 [] "goals" 2 "sports" 0 "src" (fun _p hp => nomatch hp)⟩

/-- Claim C2: `recordMetric` recomputes the trend only when the updated
history has at least 3 entries, comparing the average of the two most recent
values against the average of the two before them with the 10% thresholds;
aggregations with fewer than 3 history entries keep the `stable` trend (in
particular, with exactly 2 entries the trend stays `stable`). -/
theorem claim_C2 (reg : Registry) (metric : String) (value : ℚ)
    (domain : String) (timestamp : ℚ) (source : String)
    (h : ShortHistoryStable reg) :
    ShortHistoryStable (recordMetric reg metric value domain timestamp source) ∧
    ∀ a, alookup (recordMetric reg metric value domain timestamp source)
        (domain ++ ":" ++ metric) = some a →
      (∀ pre x y z, a.history = pre ++ [x, y, z] →
        a.trend =
          (if (y.value + z.value) / 2 > (x.value + y.value) / 2 * (11/10)
           then Trend.increasing
           else if (y.value + z.value) / 2 < (x.value + y.value) / 2 * (9/10)
           then Trend.decreasing
           else Trend.stable)) ∧
      (a.history.length < 3 → a.trend = Trend.stable) := by
  set e : HistEntry := ⟨timestamp, value, source⟩ with he
  set b : MetricAggregation := (alookup reg (domain ++ ":" ++ metric)).getD
    (freshAggregation metric timestamp) with hbdef
  have hbase : b.history.length < 3 → b.trend = Trend.stable := by
    intro hlen
    rcases hx : alookup reg (domain ++ ":" ++ metric) with _ | a
    · rw [hbdef, hx, Option.getD_none]
      rfl
    · rw [hbdef, hx, Option.getD_some] at hlen ⊢
      exact h (domain ++ ":" ++ metric, a) (alookup_mem hx) hlen
  have hhistu : (updateAggregation b value timestamp source).history =
      b.history ++ [e] := rfl
  have htrendu : (updateAggregation b value timestamp source).trend =
      if 3 ≤ (b.history ++ [e]).length
      then trendOfLast3 (b.history ++ [e]) b.trend
      else b.trend := rfl
  have hshort : ∀ q : MetricAggregation,
      q = updateAggregation b value timestamp source →
      q.history.length < 3 → q.trend = Trend.stable := by
    intro q hq hlen
    rw [hq, hhistu] at hlen
    have hnot : ¬ 3 ≤ (b.history ++ [e]).length := by omega
    have hblen : b.history.length < 3 := by
      simp only [List.length_append, List.length_cons, List.length_nil] at hlen
      omega
    rw [hq, htrendu, if_neg hnot]
    exact hbase hblen
  constructor
  · intro p hp
    simp only [recordMetric] at hp
    rcases mem_upsert hp with hpe | hpl
    · intro hlen
      exact hshort p.2 (by rw [hpe]) hlen
    · exact h p hpl
  · intro a ha
    simp only [recordMetric] at ha
    rw [alookup_upsert_self] at ha
    have haa : updateAggregation b value timestamp source = a :=
      Option.some.inj ha
    constructor
    · intro pre x y z hhist
      rw [← haa] at hhist ⊢
      rw [hhistu] at hhist
      have hlen3 : 3 ≤ (b.history ++ [e]).length := by
        rw [hhist]
        simp
      rw [htrendu, if_pos hlen3]
      unfold trendOfLast3
      rw [hhist]
      have hdrop : (pre ++ [x, y, z]).drop ((pre ++ [x, y, z]).length - 3) =
          [x, y, z] := by
        have h1 : (pre ++ [x, y, z]).length - 3 = pre.length := by simp
        rw [h1]
        exact List.drop_left pre [x, y, z]
      rw [hdrop]
    · intro hlen
      exact haa ▸ hshort a (haa.symm) (hlen)

/-- Claim C2, witness: the theorem applied to the empty registry and a
concrete call. -/
theorem claim_C2_witness :
    ShortHistoryStable [] ∧
    ShortHistoryStable (recordMetric [] "goals" 2 "sports" 0 "src") :=
  ⟨(fun _p hp => nomatch hp),
   (claim_C2 [] "goals" 2 "sports" 0 "src" (fun _p hp => nomatch hp)).1⟩

theorem sum_map_sub_sq (a : ℚ) (t : List ℚ) :
    (t.map fun x => (a - x) * (a - x)).sum =
      (t.length : ℚ) * (a * a) - 2 * a * t.sum + (t.map fun x => x * x).sum := by
  induction t with
  | nil => simp
  | cons c rest ih =>
      simp only [List.map_cons, List.sum_cons, List.length_cons, ih]
      push_cast
      ring

theorem varNum_cons (a : ℚ) (t : List ℚ) :
    varNum (a :: t) = varNum t + (t.map fun x => (a - x) * (a - x)).sum := by
  unfold varNum
  rw [sum_map_sub_sq]
  simp only [List.map_cons, List.sum_cons, List.length_cons]
  push_cast
  ring

theorem varNum_nonneg (l : List ℚ) : 0 ≤ varNum l := by
  induction l with
  | nil => simp [varNum]
  | cons a t ih =>
      rw [varNum_cons]
      have hs : 0 ≤ (t.map fun x => (a - x) * (a - x)).sum := by
        apply List.sum_nonneg
        intro y hy
        rcases List.mem_map.mp hy with ⟨x, _, hx⟩
        rw [← hx]
        exact mul_self_nonneg _
      linarith

theorem varNum_pos {l : List ℚ} {u v : ℚ} (hu : u ∈ l) (hv : v ∈ l)
    (huv : u ≠ v) : 0 < varNum l := by
  induction l with
  | nil => cases hu
  | cons a t ih =>
      rw [varNum_cons]
      have hs : 0 ≤ (t.map fun x => (a - x) * (a - x)).sum := by
        apply List.sum_nonneg
        intro y hy
        rcases List.mem_map.mp hy with ⟨x, _, hx⟩
        rw [← hx]
        exact mul_self_nonneg _
      have hvn := varNum_nonneg t
      rcases List.mem_cons.mp hu with hua | hut <;>
        rcases List.mem_cons.mp hv with hva | hvt
      · exact absurd (hua.trans hva.symm) huv
      · have hmem : (a - v) * (a - v) ∈ t.map fun x => (a - x) * (a - x) :=
          List.mem_map.mpr ⟨v, hvt, rfl⟩
        have hpos : 0 < (a - v) * (a - v) :=
          mul_self_pos.mpr (sub_ne_zero.mpr (hua ▸ huv))
        have hle : (a - v) * (a - v) ≤ (t.map fun x => (a - x) * (a - x)).sum := by
          apply List.single_le_sum _ _ hmem
          intro y hy
          rcases List.mem_map.mp hy with ⟨x, _, hx⟩
          rw [← hx]
          exact mul_self_nonneg _
        linarith
      · have hmem : (a - u) * (a - u) ∈ t.map fun x => (a - x) * (a - x) :=
          List.mem_map.mpr ⟨u, hut, rfl⟩
        have hpos : 0 < (a - u) * (a - u) :=
          mul_self_pos.mpr (sub_ne_zero.mpr (fun hh => huv (by rw [hva, ← hh])))
        have hle : (a - u) * (a - u) ≤ (t.map fun x => (a - x) * (a - x)).sum := by
          apply List.single_le_sum _ _ hmem
          intro y hy
          rcases List.mem_map.mp hy with ⟨x, _, hx⟩
          rw [← hx]
          exact mul_self_nonneg _
        linarith
      · have := ih hut hvt
        linarith

theorem varNum_const {l : List ℚ} (hconst : ∀ u ∈ l, ∀ v ∈ l, u = v) :
    varNum l = 0 := by
  induction l with
  | nil => simp [varNum]
  | cons a t ih =>
      rw [varNum_cons]
      have ht : ∀ u ∈ t, ∀ v ∈ t, u = v := fun u hu v hv =>
        hconst u (List.mem_cons_of_mem _ hu) v (List.mem_cons_of_mem _ hv)
      have hz : (t.map fun x => (a - x) * (a - x)).sum = 0 := by
        have : ∀ y ∈ t.map fun x => (a - x) * (a - x), y = 0 := by
          intro y hy
          rcases List.mem_map.mp hy with ⟨x, hx, hxy⟩
          have : a = x :=
            hconst a (List.mem_cons_self _ _) x (List.mem_cons_of_mem _ hx)
          rw [← hxy, ← this]
          ring
        exact List.sum_eq_zero this
      rw [ih ht, hz]
      norm_num

theorem zipWith_mul_self (l : List ℚ) :
    List.zipWith (· * ·) l l = l.map fun a => a * a := by
  induction l with
  | nil => rfl
  | cons a t ih => simp [List.zipWith, ih]

theorem pearsonNum_self (l : List ℚ) : pearsonNum l l = varNum l := by
  unfold pearsonNum varNum
  rw [zipWith_mul_self]

theorem pearsonRad_self (l : List ℚ) : pearsonRad l l = varNum l * varNum l := by
  unfold pearsonRad varNum
  ring

theorem pearson_self_of_nonconst {x : List ℚ}
    (hx : ∃ u ∈ x, ∃ v ∈ x, u ≠ v) :
    calculatePearsonCorrelation x x = 1 := by
  obtain ⟨u, hu, v, hv, huv⟩ := hx
  have hpos : 0 < varNum x := varNum_pos hu hv huv
  have hposR : (0 : ℝ) < (varNum x : ℚ) := by exact_mod_cast hpos
  have hne : x ≠ [] := List.ne_nil_of_mem hu
  unfold calculatePearsonCorrelation
  rw [if_neg (by push_neg; exact ⟨rfl, fun hc => hne (List.length_eq_zero.mp hc)⟩)]
  have hsq : Real.sqrt ((pearsonRad x x : ℚ) : ℝ) = ((varNum x : ℚ) : ℝ) := by
    rw [pearsonRad_self]
    push_cast
    rw [show ((varNum x : ℚ) : ℝ) * ((varNum x : ℚ) : ℝ) =
      ((varNum x : ℚ) : ℝ) ^ 2 by ring]
    exact Real.sqrt_sq (le_of_lt hposR)
  rw [if_neg (by rw [hsq]; exact ne_of_gt hposR), hsq, pearsonNum_self]
  exact div_self (ne_of_gt hposR)

/-- The Pearson correlation of the ascending vector with itself. -/
theorem pearson_ones : calculatePearsonCorrelation [1, 2, 3] [1, 2, 3] = 1 :=
  pearson_self_of_nonconst ⟨1, by simp, 2, by simp, by norm_num⟩

/-- The Pearson correlation of the ascending with the descending vector. -/
theorem pearson_desc : calculatePearsonCorrelation [1, 2, 3] [3, 2, 1] = -1 := by
  have hnum : pearsonNum [1, 2, 3] [3, 2, 1] = -6 := by
    simp [pearsonNum, List.zipWith]
    norm_num
  have hrad : pearsonRad [1, 2, 3] [3, 2, 1] = 36 := by
    simp [pearsonRad]
    norm_num
  unfold calculatePearsonCorrelation
  rw [if_neg (by norm_num)]
  rw [hnum, hrad]
  have hsq : Real.sqrt (((36 : ℚ) : ℝ)) = 6 := by
    rw [show ((36 : ℚ) : ℝ) = (6 : ℝ) ^ 2 by norm_num]
    exact Real.sqrt_sq (by norm_num)
  rw [if_neg (by rw [hsq]; norm_num), hsq]
  push_cast
  norm_num

/-- Claim C6: the Pearson function computes
`(nΣxy − ΣxΣy) / sqrt((nΣx²−(Σx)²)(nΣy²−(Σy)²))`, returning 0 whenever the
denominator `Math.sqrt` is 0; consequently the correlation of a non-constant
vector with itself is exactly 1, and the correlation of two constant vectors
is 0. -/
theorem claim_C6 :
    (∀ x y : List ℚ, x.length = y.length → x ≠ [] →
      calculatePearsonCorrelation x y =
        ((pearsonNum x y : ℚ) : ℝ) / Real.sqrt ((pearsonRad x y : ℚ) : ℝ)) ∧
    (∀ x y : List ℚ, Real.sqrt ((pearsonRad x y : ℚ) : ℝ) = 0 →
      calculatePearsonCorrelation x y = 0) ∧
    (∀ x : List ℚ, (∃ u ∈ x, ∃ v ∈ x, u ≠ v) →
      calculatePearsonCorrelation x x = 1) ∧
    (∀ x y : List ℚ, (∀ u ∈ x, ∀ v ∈ x, u = v) →
      (∀ u ∈ y, ∀ v ∈ y, u = v) →
      calculatePearsonCorrelation x y = 0) := by
  refine ⟨?_, ?_, ?_, ?_⟩
  · intro x y hlen hne
    unfold calculatePearsonCorrelation
    rw [if_neg (by push_neg; exact ⟨hlen, fun hc => hne (List.length_eq_zero.mp hc)⟩)]
    by_cases hs : Real.sqrt ((pearsonRad x y : ℚ) : ℝ) = 0
    · rw [if_pos hs, hs, div_zero]
    · rw [if_neg hs]
  · intro x y hs
    unfold calculatePearsonCorrelation
    by_cases hg : x.length ≠ y.length ∨ x.length = 0
    · rw [if_pos hg]
    · rw [if_neg hg, if_pos hs]
  · exact fun x hx => pearson_self_of_nonconst hx
  · intro x y hx _hy
    unfold calculatePearsonCorrelation
    by_cases hg : x.length ≠ y.length ∨ x.length = 0
    · rw [if_pos hg]
    · rw [if_neg hg]
      have hrad : pearsonRad x y = 0 := by
        unfold pearsonRad
        have : varNum x = 0 := varNum_const hx
        unfold varNum at this
        rw [this, zero_mul]
      rw [if_pos (by rw [hrad]; simp [Real.sqrt_zero])]

/-- Claim C6, witness: the theorem applied to the concrete non-constant
vector `[0, 1]` and to the constant vectors `[2, 2]` and `[5, 5]`. -/
theorem claim_C6_witness :
    (∃ u ∈ ([0, 1] : List ℚ), ∃ v ∈ ([0, 1] : List ℚ), u ≠ v) ∧
    calculatePearsonCorrelation [0, 1] [0, 1] = 1 ∧
    calculatePearsonCorrelation [2, 2] [5, 5] = 0 :=
  ⟨⟨0, by simp, 1, by simp, by norm_num⟩,
   claim_C6.2.2.1 [0, 1] ⟨0, by simp, 1, by simp, by norm_num⟩,
   claim_C6.2.2.2 [2, 2] [5, 5]
     (by intro u hu v hv
         rcases List.mem_pair.mp hu with h1 | h1 <;>
           rcases List.mem_pair.mp hv with h2 | h2 <;> rw [h1, h2])
     (by intro u hu v hv
         rcases List.mem_pair.mp hu with h1 | h1 <;>
           rcases List.mem_pair.mp hv with h2 | h2 <;> rw [h1, h2])⟩

/-- Claim C7: the time-aligned strategy reports no `CorrelationResult` at all
whenever fewer than 3 date-aligned pairs (±1 day) exist for the code's chosen
date/value columns, or the Pearson correlation over the aligned values has
absolute value below 0.3. -/
theorem claim_C7 (d1 d2 : DatasetMetadata)
    (h : (timeAlignedPairs d1 d2).length < 3 ∨ |alignedPearson d1 d2| < 3/10) :
    analyzeTimeBasedCorrelation d1 d2 = none := by
  simp only [analyzeTimeBasedCorrelation]
  by_cases h1 : (d1.columns.filter fun col => isDateColumn d1.data col).length = 0 ∨
      (d2.columns.filter fun col => isDateColumn d2.data col).length = 0
  · rw [if_pos h1]
  · rw [if_neg h1]
    by_cases h2 : (d1.columns.filter fun col => isNumberColumn d1 col).length = 0 ∨
        (d2.columns.filter fun col => isNumberColumn d2 col).length = 0
    · rw [if_pos h2]
    · rw [if_neg h2]
      have hpairs : timeAlignedPairs d1 d2 =
          alignTimeSeries
            (timeSeriesOf d1.data
              ((d1.columns.filter fun col => isDateColumn d1.data col).headD "")
              ((d1.columns.filter fun col => isNumberColumn d1 col).headD ""))
            (timeSeriesOf d2.data
              ((d2.columns.filter fun col => isDateColumn d2.data col).headD "")
              ((d2.columns.filter fun col => isNumberColumn d2 col).headD "")) := by
        simp only [timeAlignedPairs]
        rw [if_neg h1, if_neg h2]
      rcases hcorr : calculateTimeBasedCorrelation d1.data d2.data
          ((d1.columns.filter fun col => isDateColumn d1.data col).headD "")
          ((d2.columns.filter fun col => isDateColumn d2.data col).headD "")
          ((d1.columns.filter fun col => isNumberColumn d1 col).headD "")
          ((d2.columns.filter fun col => isNumberColumn d2 col).headD "")
        with _ | c
      · simp only [hcorr]
      · simp only [hcorr]
        simp only [calculateTimeBasedCorrelation] at hcorr
        by_cases h3 : (timeSeriesOf d1.data
              ((d1.columns.filter fun col => isDateColumn d1.data col).headD "")
              ((d1.columns.filter fun col => isNumberColumn d1 col).headD "")).length = 0 ∨
            (timeSeriesOf d2.data
              ((d2.columns.filter fun col => isDateColumn d2.data col).headD "")
              ((d2.columns.filter fun col => isNumberColumn d2 col).headD "")).length = 0
        · rw [if_pos h3] at hcorr
          cases hcorr
        · rw [if_neg h3] at hcorr
          by_cases h4 : (alignTimeSeries
              (timeSeriesOf d1.data
                ((d1.columns.filter fun col => isDateColumn d1.data col).headD "")
                ((d1.columns.filter fun col => isNumberColumn d1 col).headD ""))
              (timeSeriesOf d2.data
                ((d2.columns.filter fun col => isDateColumn d2.data col).headD "")
                ((d2.columns.filter fun col => isNumberColumn d2 col).headD ""))).length < 3
          · rw [if_pos h4] at hcorr
            cases hcorr
          · rw [if_neg h4] at hcorr
            have hinj := Option.some.inj hcorr
            rcases h with hlen | habs
            · rw [hpairs] at hlen
              exact absurd hlen h4
            · unfold alignedPearson at habs
              rw [hpairs] at habs
              rw [if_pos (by rw [← hinj]; exact habs)]

theorem timeAlignedPairs_length_le (d1 d2 : DatasetMetadata) :
    (timeAlignedPairs d1 d2).length ≤ d1.data.length := by
  simp only [timeAlignedPairs]
  split_ifs with h1 h2
  · simp
  · simp
  · calc (alignTimeSeries _ _).length
        ≤ (timeSeriesOf d1.data
            ((d1.columns.filter fun col => isDateColumn d1.data col).headD "")
            ((d1.columns.filter fun col => isNumberColumn d1 col).headD "")).length := by
          unfold alignTimeSeries
          exact List.length_filterMap_le _ _
      _ ≤ d1.data.length := by
          unfold timeSeriesOf
          rw [List.length_mergeSort]
          exact List.length_filterMap_le _ _

/-- Claim C7, witness: two single-row datasets with a date column and a
numeric column can produce at most one aligned pair, and the theorem yields
the absence of a time-based result. -/
theorem claim_C7_witness :
    (timeAlignedPairs
        ⟨"i1", "A", "general", ["d", "v"], [("v", "number")],
          [[("d", 0), ("v", 1)]]⟩
        ⟨"i2", "B", "general", ["d", "v"], [("v", "number")],
          [[("d", 0), ("v", 2)]]⟩).length < 3 ∧
    analyzeTimeBasedCorrelation
        ⟨"i1", "A", "general", ["d", "v"], [("v", "number")],
          [[("d", 0), ("v", 1)]]⟩
        ⟨"i2", "B", "general", ["d", "v"], [("v", "number")],
          [[("d", 0), ("v", 2)]]⟩ = none :=
  have hlt : (timeAlignedPairs
      ⟨"i1", "A", "general", ["d", "v"], [("v", "number")],
        [[("d", 0), ("v", 1)]]⟩
      ⟨"i2", "B", "general", ["d", "v"], [("v", "number")],
        [[("d", 0), ("v", 2)]]⟩).length < 3 :=
    lt_of_le_of_lt (timeAlignedPairs_length_le _ _) (by simp)
  ⟨hlt, claim_C7 _ _ (Or.inl hlt)⟩

/-- Claim C10: the time-aligned strategy and the domain-independent
shared-column strategy always report a non-negative coefficient (the absolute
value of the computed correlation), while the same-domain shared-column
strategy can report a negative coefficient (witnessed by two same-domain
datasets whose shared column is perfectly anti-correlated). -/
theorem claim_C10 :
    (∀ d1 d2 : DatasetMetadata, ∀ r : CorrelationResult,
      analyzeTimeBasedCorrelation d1 d2 = some r → 0 ≤ r.correlation) ∧
    (∀ d1 d2 : DatasetMetadata, ∀ r : CorrelationResult,
      analyzeSharedColumnCorrelation d1 d2 = some r → 0 ≤ r.correlation) ∧
    (∃ r : CorrelationResult,
      analyzeSameDomainCorrelation dsAsc dsDesc = some r ∧ r.correlation < 0) := by
  refine ⟨?_, ?_, ?_⟩
  · intro d1 d2 r h
    simp only [analyzeTimeBasedCorrelation] at h
    by_cases h1 : (d1.columns.filter fun col => isDateColumn d1.data col).length = 0 ∨
        (d2.columns.filter fun col => isDateColumn d2.data col).length = 0
    · rw [if_pos h1] at h
      cases h
    · rw [if_neg h1] at h
      by_cases h2 : (d1.columns.filter fun col => isNumberColumn d1 col).length = 0 ∨
          (d2.columns.filter fun col => isNumberColumn d2 col).length = 0
      · rw [if_pos h2] at h
        cases h
      · rw [if_neg h2] at h
        rcases hc : calculateTimeBasedCorrelation d1.data d2.data
            ((d1.columns.filter fun col => isDateColumn d1.data col).headD "")
            ((d2.columns.filter fun col => isDateColumn d2.data col).headD "")
            ((d1.columns.filter fun col => isNumberColumn d1 col).headD "")
            ((d2.columns.filter fun col => isNumberColumn d2 col).headD "")
          with _ | c
        · rw [hc] at h
          cases h
        · rw [hc] at h
          simp only at h
          by_cases habs : |c| < 3/10
          · rw [if_pos habs] at h
            cases h
          · rw [if_neg habs] at h
            cases h
            exact abs_nonneg c
  · intro d1 d2 r h
    simp only [analyzeSharedColumnCorrelation] at h
    split_ifs at h with h1 h2 h3
    all_goals cases h
    exact abs_nonneg _
  · have hcol : calculateColumnCorrelation dsAsc.data dsDesc.data "x" =
        some (calculatePearsonCorrelation [1, 2, 3] [3, 2, 1]) := rfl
    have hcoeffs : sharedColumnCoefficients dsAsc dsDesc =
        [calculatePearsonCorrelation [1, 2, 3] [3, 2, 1]] := rfl
    refine ⟨⟨"A", "C",
      (calculatePearsonCorrelation [1, 2, 3] [3, 2, 1] + 0) / ((1 : ℕ) : ℝ),
      ["x"],
      Min.min ((calculatePearsonCorrelation [1, 2, 3] [3, 2, 1] + 0) /
        ((1 : ℕ) : ℝ) * (12/10)) 1⟩, ?_, ?_⟩
    · rfl
    · show (calculatePearsonCorrelation [1, 2, 3] [3, 2, 1] + 0) /
        ((1 : ℕ) : ℝ) < 0
      rw [pearson_desc]
      norm_num

/-- Claim C10, witness: the non-negativity conjunct applied to a successful
run of the shared-column strategy on two datasets whose shared `x` column is
perfectly correlated. -/
theorem claim_C10_witness :
    analyzeSharedColumnCorrelation dsAsc dsAsc2 =
      some ⟨"A", "B", |(1 : ℝ)|, ["x"], Min.min (|(1 : ℝ)| * (11/10)) 1⟩ ∧
    (0 : ℝ) ≤ (CorrelationResult.mk "A" "B" |(1 : ℝ)| ["x"]
      (Min.min (|(1 : ℝ)| * (11/10)) 1)).correlation := by
  have hcoeffs : sharedColumnCoefficients dsAsc dsAsc2 =
      [calculatePearsonCorrelation [1, 2, 3] [1, 2, 3]] := rfl
  have havg : ([calculatePearsonCorrelation [1, 2, 3] [1, 2, 3]].sum) /
      (([calculatePearsonCorrelation [1, 2, 3] [1, 2, 3]].length : ℕ) : ℝ) =
      (1 : ℝ) := by
    rw [List.sum_cons, List.sum_nil, pearson_ones]
    norm_num
  have hres : analyzeSharedColumnCorrelation dsAsc dsAsc2 =
      some ⟨"A", "B", |(1 : ℝ)|, ["x"], Min.min (|(1 : ℝ)| * (11/10)) 1⟩ := by
    simp only [analyzeSharedColumnCorrelation]
    rw [if_neg (show ¬(findSharedColumns dsAsc dsAsc2 = []) by decide)]
    rw [hcoeffs]
    rw [if_neg (show ¬(([calculatePearsonCorrelation [1, 2, 3] [1, 2, 3]] :
      List ℝ).length = 0) by simp)]
    rw [havg]
    rw [if_neg (show ¬(|(1 : ℝ)| < 2/10) by norm_num)]
    rfl
  exact ⟨hres, claim_C10.2.1 dsAsc dsAsc2 _ hres⟩

/-- Claim C3, counterexample: `DataPipeline.detectDomain` checks its sports
indicators before its financial indicators, so the dataset with columns
`goals` and `amount` is classified `sports` there, not `financial`. -/
theorem claim_C3_counterexample :
    pipelineDetectDomain ⟨"d", ["goals", "amount"], []⟩ = "sports" ∧
    "sports" ≠ "financial" := by
  exact ⟨by decide, by decide⟩

/-- Claim C3, amended: `DomainAnalyzer.detectDomain` (`database.ts`) is
first-match-wins in the order financial → sports → health → productivity →
general, so a dataset whose columns include `goals` and `amount` is always
classified `financial`; but `DataPipeline.detectDomain` (`dataPipeline.ts`)
checks sports → financial → health → general and classifies the same dataset
`sports`. -/
theorem claim_C3 :
    (∀ (data : List Row) (columns : List String),
      "goals" ∈ columns → "amount" ∈ columns →
      (analyzerDetectDomain data columns).type = "financial") ∧
    (∀ ds : PipelineDataset, "goals" ∈ ds.columns →
      pipelineDetectDomain ds = "sports") := by
  constructor
  · intro data columns _hg ha
    have hfin : isFinancialData (getDomainIndicators data columns) columns = true := by
      unfold isFinancialData
      have : columns.any (fun col => isMoneyColumn col) = true :=
        List.any_eq_true.mpr ⟨"amount", ha, by decide⟩
      rw [this]
      simp
    unfold analyzerDetectDomain
    rw [if_pos hfin]
  · intro ds hg
    have hsp : (ds.columns.map jsToLower).any (fun col =>
        jsIncludes col "goal" || jsIncludes col "score" ||
        jsIncludes col "match") = true := by
      refine List.any_eq_true.mpr ⟨"goals", ?_, by decide⟩
      exact List.mem_map.mpr ⟨"goals", hg, by decide⟩
    unfold pipelineDetectDomain
    rw [if_pos hsp]

/-- Claim C3, witness: the amended theorem applied to the concrete dataset
with columns `goals` and `amount`. -/
theorem claim_C3_witness :
    (analyzerDetectDomain [] ["goals", "amount"]).type = "financial" ∧
    pipelineDetectDomain ⟨"d", ["goals", "amount"], []⟩ = "sports" :=
  ⟨claim_C3.1 [] ["goals", "amount"] (by decide) (by decide),
   claim_C3.2 ⟨"d", ["goals", "amount"], []⟩ (by decide)⟩

theorem decimalValue_int (ds : List Char) (n : ℕ) (h : digitsToNat ds = n) :
    decimalValue ds [] = (n : ℚ) := by
  rw [decimalValue, h, show digitsToNat [] = 0 from rfl]
  norm_num

/-- Claim C4, counterexample: in `"5 kilometers 3 km"` the canonical metric
`kilometers` occurs twice, the last occurrence in scan order carrying the
value 3 (the first pass maps both `kilometers` and `km` to `kilometers`), yet
the extractor reports 5: the second pass's alternation has no `km` token, so
its match for the earlier `5 kilometers` occurrence overwrites the first
pass's last-occurrence value. -/
theorem claim_C4_counterexample :
    scanPass1 ("5 kilometers 3 km".data.length) "5 kilometers 3 km".data =
      [(5, "kilometers"), (3, "km")] ∧
    normalizeUnit "km" = "kilometers" ∧
    alookup (extractMetrics "5 kilometers 3 km") "kilometers" = some 5 ∧
    (5 : ℚ) ≠ 3 := by
  have h5 : decimalValue ['5'] [] = (5 : ℚ) := decimalValue_int _ 5 (by decide)
  have h3 : decimalValue ['3'] [] = (3 : ℚ) := decimalValue_int _ 3 (by decide)
  refine ⟨?_, by decide, ?_, by norm_num⟩
  · rw [show scanPass1 ("5 kilometers 3 km".data.length) "5 kilometers 3 km".data =
      [(decimalValue ['5'] [], "kilometers"), (decimalValue ['3'] [], "km")] from rfl,
      h5, h3]
  · rw [← h5]
    rfl

/-- Claim C4, amended: for a single occurrence of `<N> <unit>` with an
alphabetic unit token of the normalization table mapping to canonical name
`M`, the extractor reports `metrics[M] = N` (shown for `N = 7` across the
whole table); when the same canonical metric occurs several times, the last
occurrence re-matched by the second (context) pass wins — which is the last
occurrence in scan order unless its unit token (such as `km` or `kg`) is
absent from the context alternation, in which case an earlier spelled-out
occurrence overrides it. -/
theorem claim_C4 :
    (∀ p ∈ unitMap, p.1.data.all Char.isAlpha = true →
      alookup (extractMetrics ("7 " ++ p.1)) p.2 = some 7) ∧
    alookup (extractMetrics "5 kilometers 3 kilometers") "kilometers" = some 3 ∧
    alookup (extractMetrics "5 km 3 km") "kilometers" = some 3 := by
  have h7 : decimalValue ['7'] [] = (7 : ℚ) := decimalValue_int _ 7 (by decide)
  have h3 : decimalValue ['3'] [] = (3 : ℚ) := decimalValue_int _ 3 (by decide)
  refine ⟨?_, ?_, ?_⟩
  · intro p hp halpha
    fin_cases hp <;>
      first
        | exact absurd halpha (by decide)
        | (rw [← h7]; rfl)
  · rw [← h3]
    rfl
  · rw [← h3]
    rfl

/-- Claim C4, witness: the amended single-occurrence clause applied to the
table entry `goal ↦ goals`. -/
theorem claim_C4_witness :
    ("goal", "goals") ∈ unitMap ∧
    alookup (extractMetrics "7 goal") "goals" = some 7 :=
  ⟨by decide, claim_C4.1 ("goal", "goals") (by decide) (by decide)⟩

/-- Claim C9, counterexample: on empty text (with the external AI
unavailable) the extractor degrades through the rule-based path, whose fixed
confidence is `0.7`, not the claimed `0`. -/
theorem claim_C9_counterexample :
    (processText AIOutcome.unavailable "").extractedData.confidence = 7/10 ∧
    (7/10 : ℚ) ≠ 0 :=
  ⟨rfl, by norm_num⟩

/-- Claim C9, amended: `processText` never raises — its body returns a
normal result for every AI outcome and every text, with all internal failures
handled before the outer catch; on empty text the degraded result has empty
metrics and `neutral` sentiment, but its confidence is the rule-path constant
`0.7`; the `confidence = 0` defaults of the claim are those of
`getFallbackResult`, which is reached only when the body itself fails. -/
theorem claim_C9 :
    (∀ (ai : AIOutcome) (text : String),
      processTextBody ai text = Except.ok
        ⟨text, extractDataWithAI ai text,
          detectTextDomain text (extractDataWithAI ai text)⟩) ∧
    (∀ text, (getFallbackResult text).extractedData =
      ⟨[], [], [], Sentiment.neutral, 0⟩) ∧
    (processText AIOutcome.unavailable "").extractedData.metrics = [] ∧
    (processText AIOutcome.unavailable "").extractedData.sentiment =
      Sentiment.neutral ∧
    (processText AIOutcome.unavailable "").extractedData.confidence = 7/10 :=
  ⟨fun _ _ => rfl, fun _ => rfl, rfl, rfl, rfl⟩

end AIK
